import Mathlib

/-!
Shallow embedding of the claudesh core (src/main.rs): the input classifier,
the bounded stderr tee-and-capture of the process executor, the failure
recovery flow, and the session loops.  Strings are modelled as lists of
characters, byte streams as lists of naturals, and the effectful
collaborators (the spawned shell, the file system, the interactive user and
the AI CLI) as explicit oracle parameters.
-/

set_option autoImplicit false

namespace Claudesh

/-! ### Character and string helpers mirroring the Rust std functions used -/

/-- Whitespace test; mirrors the character class of str::trim and
split_whitespace on the ASCII range. -/
def isWS (c : Char) : Bool :=
  c == ' ' || c == '\t' || c == '\n' || c == '\r' || c == '\x0b' || c == '\x0c'

/-- Both-ends trim, as str::trim. -/
def rustTrim (s : List Char) : List Char :=
  ((s.dropWhile isWS).reverse.dropWhile isWS).reverse

/-- str::strip_prefix on character lists. -/
def stripPre : List Char → List Char → Option (List Char)
  | [], s => some s
  | _ :: _, [] => none
  | p :: ps, c :: cs => if p = c then stripPre ps cs else none

/-- str::starts_with on character lists. -/
def startsWith (p s : List Char) : Bool := (stripPre p s).isSome

/-- Word characters of the variable-assignment heuristic:
char::is_ascii_alphanumeric or an underscore. -/
def isWordChar (c : Char) : Bool := c.isAlphanum || c == '_'

/-- ASCII lowercasing, the fragment of str::to_lowercase exercised by the
single-letter confirmation answers. -/
def asciiLower (c : Char) : Char :=
  if 'A' ≤ c ∧ c ≤ 'Z' then Char.ofNat (c.toNat + 32) else c

/-- read_single_line().trim().to_lowercase(), applied to every confirmation
answer the recovery flow reads. -/
def lowerTrim (s : List Char) : List Char := (rustTrim s).map asciiLower

/-- Decimal-digit run, the core of i32::from_str. -/
def parseDigits (cs : List Char) : Option Nat :=
  if cs = [] then none
  else if cs.all Char.isDigit then
    some (cs.foldl (fun a c => a * 10 + (c.toNat - 48)) 0)
  else none

/-- str::parse::<i32>: optional sign, decimal digits, i32 range check. -/
def parseI32 (s : List Char) : Option Int :=
  match s with
  | '+' :: rest => (parseDigits rest).bind fun n =>
      if n ≤ 2147483647 then some (n : Int) else none
  | '-' :: rest => (parseDigits rest).bind fun n =>
      if n ≤ 2147483648 then some (-(n : Int)) else none
  | _ => (parseDigits s).bind fun n =>
      if n ≤ 2147483647 then some (n : Int) else none

/-- str::find('=') together with the slice before and after the first hit,
as used by the variable-assignment check. -/
def splitFirst (t : Char) : List Char → Option (List Char × List Char)
  | [] => none
  | c :: cs =>
    if c = t then some ([], cs)
    else
      match splitFirst t cs with
      | some (pre, post) => some (c :: pre, post)
      | none => none

/-- First occurrence of a substring: str::splitn(2, pat) when it yields two
parts.  Returns the text before and after the first occurrence. -/
def splitOnceSub (pat : List Char) : List Char → Option (List Char × List Char)
  | [] => none
  | c :: cs =>
    if pat.isPrefixOf (c :: cs) then some ([], (c :: cs).drop pat.length)
    else
      match splitOnceSub pat cs with
      | some (pre, post) => some (c :: pre, post)
      | none => none

/-- str::contains of a substring pattern. -/
def containsSub (pat s : List Char) : Bool := (splitOnceSub pat s).isSome

/-- Fuel-indexed loop of str::trim_start_matches. -/
def trimStartGo (pat : List Char) : Nat → List Char → List Char
  | 0, s => s
  | fuel + 1, s =>
    match stripPre pat s with
    | some r => if pat.isEmpty then s else trimStartGo pat fuel r
    | none => s

/-- str::trim_start_matches: repeatedly remove a leading copy of the
pattern.  With a nonempty pattern the fuel s.length + 1 never runs out. -/
def trimStartM (pat s : List Char) : List Char := trimStartGo pat (s.length + 1) s

/-- str::rfind of a substring: start index of its last occurrence. -/
def rfindIdx (pat s : List Char) : Option Nat :=
  ((List.range (s.length + 1)).filter (fun i => pat.isPrefixOf (s.drop i))).getLast?

/-- strip_code_fences from src/main.rs: trim, drop a leading code fence and
its language tag, drop everything from the last closing fence on, trim. -/
def strip_code_fences (s : List Char) : List Char :=
  let s0 := rustTrim s
  if startsWith "```".data s0 then
    let s1 := trimStartM "```bash".data s0
    let s2 := trimStartM "```sh".data s1
    let s3 := trimStartM "```shell".data s2
    let s4 := trimStartM "```".data s3
    let s5 :=
      match rfindIdx "```".data s4 with
      | some idx => s4.take idx
      | none => s4
    rustTrim s5
  else s0

/-! ### Input classification (classify_input / is_shell_command) -/

/-- SHELL_BUILTINS constant from src/main.rs. -/
def SHELL_BUILTINS : List (List Char) :=
  ["alias".data, "unalias".data, "set".data, "shopt".data, "type".data, "hash".data,
   "ulimit".data, "umask".data, "wait".data, "jobs".data, "fg".data, "bg".data,
   "disown".data, "builtin".data, "command".data, "declare".data, "local".data,
   "readonly".data, "typeset".data, "let".data, "eval".data, "exec".data, "trap".data,
   "return".data, "shift".data, "getopts".data, "read".data, "mapfile".data,
   "readarray".data, "printf".data, "echo".data, "test".data, "true".data, "false".data,
   "for".data, "while".data, "if".data, "case".data, "select".data, "until".data,
   "do".data, "done".data, "then".data, "else".data, "elif".data, "fi".data,
   "esac".data, "in".data]

/-- COMMAND_PREFIXES constant from src/main.rs. -/
def COMMAND_PREFIXES : List (List Char) :=
  ["sudo ".data, "env ".data, "nohup ".data, "time ".data, "nice ".data,
   "strace ".data, "watch ".data, "xargs ".data]

/-- Shell-syntax sentinel characters of is_shell_command. -/
def sentinelChars : List Char := ['/', '.', '~', '(', '{', '[', '$', '<', '>']

/-- is_shell_command from src/main.rs: sentinel first character, variable
assignment before the first '=', command-prefix keyword, then the first
token (pipe/semicolon/ampersand stripped) against builtins, the PATH
snapshot, and an embedded slash. -/
def is_shell_command (input : List Char) (pcs : List (List Char)) : Bool :=
  let first_char := input.head?.getD ' '
  if sentinelChars.contains first_char then true
  else
    let assignCheck :=
      match splitFirst '=' input with
      | some (before, _) =>
          !(before.isEmpty) && !(before.contains ' ') && before.all isWordChar
      | none => false
    if assignCheck then true
    else if COMMAND_PREFIXES.any (fun p => startsWith p input) then true
    else
      let t0 := (input.dropWhile isWS).takeWhile (fun c => !(isWS c))
      let t1 := t0.takeWhile (fun c => c != '|')
      let t2 := t1.takeWhile (fun c => c != ';')
      let t3 := t2.takeWhile (fun c => c != '&')
      if SHELL_BUILTINS.contains t3 then true
      else if pcs.contains t3 then true
      else t3.contains '/'

/-- InputKind enum from src/main.rs. -/
inductive InputKind where
  | Exit (code : Option Int)
  | Help
  | Cd (dir : List Char)
  | Export (assignment : List Char)
  | Unset (name : List Char)
  | Source (path : List Char)
  | History
  | Comment
  | ForceBash (cmd : List Char)
  | Explain (subject : List Char)
  | Ask (question : List Char)
  | ShellCommand (cmd : List Char)
  | NaturalLanguage (text : List Char)
deriving DecidableEq

/-- classify_input from src/main.rs.  The Rust early-return chain is written
as a chain of fall-through continuations k2 ... k15, in source order:
comment, exact exit/quit/logout, "exit " with argument, help, history,
the ! / ?? / ? escapes, cd, export, unset, source, ". ", then the
shell-likeness test deciding ShellCommand vs NaturalLanguage. -/
def classify_input (input : List Char) (pcs : List (List Char)) : InputKind :=
  let k15 :=
    if is_shell_command input pcs then InputKind.ShellCommand input
    else InputKind.NaturalLanguage input
  let k14 :=
    match stripPre ". ".data input with
    | some p => InputKind.Source (rustTrim p)
    | none => k15
  let k13 :=
    match stripPre "source ".data input with
    | some p => InputKind.Source (rustTrim p)
    | none => k14
  let k12 :=
    match stripPre "unset ".data input with
    | some n => InputKind.Unset (rustTrim n)
    | none => k13
  let k11 :=
    match stripPre "export ".data input with
    | some a => InputKind.Export (rustTrim a)
    | none => k12
  let k10 :=
    match stripPre "cd ".data input with
    | some d => InputKind.Cd (rustTrim d)
    | none => k11
  let k9 := if input = "cd".data then InputKind.Cd [] else k10
  let k8 :=
    match (stripPre "? ".data input).orElse (fun _ => stripPre "?".data input) with
    | some subj =>
        let subj := rustTrim subj
        if subj = [] then k9 else InputKind.Explain subj
    | none => k9
  let k7 :=
    match (stripPre "?? ".data input).orElse (fun _ => stripPre "??".data input) with
    | some q =>
        let q := rustTrim q
        if q = [] then k8 else InputKind.Ask q
    | none => k8
  let k6 :=
    match (stripPre "! ".data input).orElse (fun _ => stripPre "!".data input) with
    | some c =>
        let c := rustTrim c
        if c = [] then k7 else InputKind.ForceBash c
    | none => k7
  let k5 := if input = "history".data then InputKind.History else k6
  let k4 := if input = "help".data then InputKind.Help else k5
  let k3 :=
    match stripPre "exit ".data input with
    | some r => InputKind.Exit (parseI32 (rustTrim r))
    | none => k4
  let k2 :=
    if input = "exit".data ∨ input = "quit".data ∨ input = "logout".data
    then InputKind.Exit none else k3
  if input.head? = some '#' then InputKind.Comment else k2

/-! ### Process execution (run_bash) -/

/-- STDERR_CAPTURE_LIMIT constant from src/main.rs: 1 MiB. -/
def STDERR_CAPTURE_LIMIT : Nat := 1024 * 1024

/-- State of the stderr drain thread: bytes forwarded to the real error
stream so far, and bytes captured so far. -/
structure DrainState where
  forwarded : List Nat
  captured : List Nat
deriving DecidableEq

/-- One iteration of the stderr drain loop of run_bash for a chunk read from
the pipe: the raw chunk is forwarded to the real error stream, and if the
capture is not yet full, up to the remaining quota of the chunk is appended
to the capture. -/
def drainStep (st : DrainState) (chunk : List Nat) : DrainState :=
  { forwarded := st.forwarded ++ chunk
    captured :=
      if st.captured.length < STDERR_CAPTURE_LIMIT then
        st.captured ++
          chunk.take (min chunk.length (STDERR_CAPTURE_LIMIT - st.captured.length))
      else st.captured }

/-- The whole drain loop, run over the sequence of chunks the pipe yields
before EOF. -/
def drainStderr (chunks : List (List Nat)) : DrainState :=
  chunks.foldl drainStep { forwarded := [], captured := [] }

/-- child.wait() outcome: a normal exit code, death by signal (code() is
None), or a wait error; the latter two are mapped to 1 by run_bash. -/
inductive WaitStatus where
  | exited (code : Int)
  | signalled
  | waitFailed
deriving DecidableEq

/-- Exit-code mapping of run_bash: s.code().unwrap_or(1), respectively 1 on
a wait error. -/
def waitCode : WaitStatus → Int
  | .exited c => c
  | .signalled => 1
  | .waitFailed => 1

/-- Outcome of Command::spawn: a running child whose stderr pipe will yield
the given chunks and whose wait gives the given status, or a spawn error
with an OS error message. -/
inductive SpawnOutcome where
  | spawned (chunks : List (List Nat)) (status : WaitStatus)
  | spawnErr (emsg : List Char)

/-- RunResult struct from src/main.rs.  captured_stderr is the capture after
String::from_utf8_lossy, so character text rather than bytes. -/
structure RunResult where
  exit_code : Int
  captured_stderr : List Char
deriving DecidableEq

/-- run_bash from src/main.rs.  The decode parameter stands for
String::from_utf8_lossy (library code, passed as an oracle).  The second
component lists the diagnostic messages printed with eprintln on the error
path (the forwarded stream bytes live in DrainState.forwarded instead).
A spawn error never escapes: it becomes a synthetic RunResult with exit
code 127 whose capture is the diagnostic, printed once. -/
def run_bash (decode : List Nat → List Char) (_cmd : List Char)
    (outcome : SpawnOutcome) : RunResult × List (List Char) :=
  match outcome with
  | .spawned chunks status =>
      ({ exit_code := waitCode status
         captured_stderr := decode (drainStderr chunks).captured }, [])
  | .spawnErr emsg =>
      let msg := "failed to execute: ".data ++ emsg
      ({ exit_code := 127, captured_stderr := msg }, [msg])

/-! ### Failure recovery (offer_error_help / do_ai_error_analysis) -/

/-- The diagnostic context do_ai_error_analysis formats into its prompt:
the command named to the AI, the exit code, and the stderr text. -/
structure ErrorContext where
  command : List Char
  exit_code : Int
  stderr : List Char
deriving DecidableEq

/-- Observable actions of the recovery flow, in the order they happen:
the sudo-retry prompt, a run_bash invocation, the two press-f offers, the
AI invocation with its context, displayed text, and the run/skip prompt for
a suggested fix. -/
inductive Ev where
  | promptSudo
  | runCmd (cmd : List Char)
  | promptFixRetry (code : Int)
  | promptFix (code : Int)
  | callAI (ctx : ErrorContext)
  | showText (t : List Char)
  | promptRunFix
deriving DecidableEq

/-- Recognizer for the AI invocation event. -/
def Ev.isCallAI : Ev → Bool
  | .callAI _ => true
  | _ => false

/-- Recognizer for the run_bash invocation event. -/
def Ev.isRunCmd : Ev → Bool
  | .runCmd _ => true
  | _ => false

/-- Permission-denial detection of offer_error_help: the six case-sensitive
substrings scanned for in the captured stderr. -/
def is_permission_error (stderr : List Char) : Bool :=
  containsSub "Permission denied".data stderr ||
  containsSub "permission denied".data stderr ||
  containsSub "EACCES".data stderr ||
  containsSub "Operation not permitted".data stderr ||
  containsSub "must be root".data stderr ||
  containsSub "Access denied".data stderr

/-- do_ai_error_analysis from src/main.rs as an event trace.  The AI oracle
stands for call_claude on the formatted error context; its reply is
fence-stripped and split at the first blank line into explanation and
suggested command.  When a suggested command exists and the user accepts
(empty / r / y / run), it is run via run_bash and its result is discarded:
nothing follows the run event. -/
def do_ai_error_analysis (aiO : ErrorContext → Option (List Char))
    (cmd stderr : List Char) (exit_code : Int)
    (users : List (List Char)) : List Ev :=
  let ctx : ErrorContext := ⟨cmd, exit_code, stderr⟩
  Ev.callAI ctx ::
    match aiO ctx with
    | none => []
    | some reply =>
        let text := strip_code_fences reply
        match splitOnceSub ['\n', '\n'] text with
        | some (p1, p2) =>
            let explanation := rustTrim p1
            let suggested := rustTrim p2
            Ev.showText explanation :: Ev.showText suggested :: Ev.promptRunFix ::
              (let choice := lowerTrim (users.headD [])
               if choice = [] ∨ choice = "r".data ∨ choice = "y".data ∨
                  choice = "run".data
               then [Ev.runCmd suggested]
               else [])
        | none => [Ev.showText text]

/-- The generic tail of offer_error_help: the exit-code summary with the
press-f offer, taking the AI analysis on f / fix. -/
def fix_offer (aiO : ErrorContext → Option (List Char))
    (cmd stderr : List Char) (exit_code : Int)
    (users : List (List Char)) : List Ev :=
  Ev.promptFix exit_code ::
    (let choice := lowerTrim (users.headD [])
     if choice = "f".data ∨ choice = "fix".data
     then do_ai_error_analysis aiO cmd stderr exit_code (users.drop 1)
     else [])

/-- offer_error_help from src/main.rs as an event trace.  users is the
stream of confirmation lines the interactive prompt yields.  On a
permission-denial signal for a command not already under sudo, the sudo
retry is offered first; on acceptance the sudo-prefixed command is re-run,
and if that retry fails too, one press-f offer follows (note it passes the
original, un-prefixed command to the analysis together with the retry's
stderr and exit code).  A declined sudo offer falls through to the generic
press-f offer. -/
def offer_error_help (runO : List Char → RunResult)
    (aiO : ErrorContext → Option (List Char))
    (cmd : List Char) (result : RunResult)
    (users : List (List Char)) : List Ev :=
  let stderr := result.captured_stderr
  let exit_code := result.exit_code
  if is_permission_error stderr && !(startsWith "sudo ".data cmd) then
    Ev.promptSudo ::
      (let choice := lowerTrim (users.headD [])
       if choice = "y".data ∨ choice = "yes".data then
         let sudo_cmd := "sudo ".data ++ cmd
         let retry := runO sudo_cmd
         Ev.runCmd sudo_cmd ::
           (if retry.exit_code ≠ 0 then
              Ev.promptFixRetry retry.exit_code ::
                (let choice2 := lowerTrim ((users.drop 1).headD [])
                 if choice2 = "f".data then
                   do_ai_error_analysis aiO cmd retry.captured_stderr
                     retry.exit_code (users.drop 2)
                 else [])
            else [])
       else fix_offer aiO cmd stderr exit_code (users.drop 1))
  else fix_offer aiO cmd stderr exit_code users

/-! ### Session loops (execute_line, run_piped / run_script_file,
run_interactive) -/

/-- Oracles for the effectful branches of execute_line: the shell runner,
the cd and source builtins (file system), the interactive
natural-language path, and claude availability.  handle_source may itself
hit an exit line, whence its Except-shaped result. -/
structure Oracles where
  runO : List Char → RunResult
  cdO : List Char → Int
  sourceO : List Char → Except Int Int
  nlIntO : List Char → Int
  claudeAvailable : Bool

/-- execute_line from src/main.rs (the non-interactive dispatcher used by
piped, script and source execution).  Except.error c models
std::process::exit(c): an Exit line terminates the process with
code.unwrap_or(0).  NaturalLanguage prints a generated command and yields 0
when claude is available, else 127. -/
def execute_line (o : Oracles) (pcs : List (List Char))
    (input : List Char) : Except Int Int :=
  match classify_input input pcs with
  | InputKind.Exit code => Except.error (code.getD 0)
  | InputKind.Comment => Except.ok 0
  | InputKind.Help => Except.ok 0
  | InputKind.Cd d => Except.ok (o.cdO d)
  | InputKind.Export _ => Except.ok 0
  | InputKind.Unset _ => Except.ok 0
  | InputKind.Source p => o.sourceO p
  | InputKind.History => Except.ok 0
  | InputKind.ForceBash c => Except.ok (o.runO c).exit_code
  | InputKind.Explain _ => Except.ok 0
  | InputKind.Ask _ => Except.ok 0
  | InputKind.ShellCommand c => Except.ok (o.runO c).exit_code
  | InputKind.NaturalLanguage _ =>
      if o.claudeAvailable then Except.ok 0 else Except.ok 127

/-- The shared line loop of run_piped and run_script_file: trim, skip blank
and #-leading lines, dispatch through execute_line, track the last exit
code; an Exit line ends the process with its code immediately. -/
def run_lines (o : Oracles) (pcs : List (List Char)) :
    Int → List (List Char) → Int
  | lastExit, [] => lastExit
  | lastExit, line :: restLines =>
    let input := rustTrim line
    if input = [] ∨ input.head? = some '#' then run_lines o pcs lastExit restLines
    else
      match execute_line o pcs input with
      | Except.error c => c
      | Except.ok le => run_lines o pcs le restLines

/-- run_piped from src/main.rs: the line loop started at last_exit 0, with
the final code reduced to the u8 the process reports. -/
def run_piped (o : Oracles) (pcs : List (List Char))
    (lines : List (List Char)) : Int :=
  (run_lines o pcs 0 lines).emod 256

/-- run_script_file from src/main.rs after the script has been read: the
same loop as run_piped over the file's lines. -/
def run_script (o : Oracles) (pcs : List (List Char))
    (lines : List (List Char)) : Int :=
  (run_lines o pcs 0 lines).emod 256

/-- The interactive REPL loop of run_interactive, tracking last_exit.  An
Exit line breaks the loop with code.unwrap_or(last_exit) — the bare exit
reuses the previous command's code here.  Comment and blank lines continue
with last_exit unchanged; an exit line inside a sourced file still
terminates via process::exit (the error side of the source oracle); EOF
breaks with last_exit. -/
def run_interactive_loop (o : Oracles) (pcs : List (List Char)) :
    Int → List (List Char) → Int
  | lastExit, [] => lastExit
  | lastExit, line :: restLines =>
    let input := rustTrim line
    if input = [] then run_interactive_loop o pcs lastExit restLines
    else
      match classify_input input pcs with
      | InputKind.Exit code => code.getD lastExit
      | InputKind.Comment => run_interactive_loop o pcs lastExit restLines
      | InputKind.Help => run_interactive_loop o pcs 0 restLines
      | InputKind.Cd d => run_interactive_loop o pcs (o.cdO d) restLines
      | InputKind.Export _ => run_interactive_loop o pcs 0 restLines
      | InputKind.Unset _ => run_interactive_loop o pcs 0 restLines
      | InputKind.Source p =>
          match o.sourceO p with
          | Except.error c => c
          | Except.ok le => run_interactive_loop o pcs le restLines
      | InputKind.History => run_interactive_loop o pcs 0 restLines
      | InputKind.ForceBash c =>
          run_interactive_loop o pcs (o.runO c).exit_code restLines
      | InputKind.Explain _ => run_interactive_loop o pcs 0 restLines
      | InputKind.Ask _ => run_interactive_loop o pcs 0 restLines
      | InputKind.ShellCommand c =>
          run_interactive_loop o pcs (o.runO c).exit_code restLines
      | InputKind.NaturalLanguage t =>
          run_interactive_loop o pcs
            (if o.claudeAvailable then o.nlIntO t else 127) restLines

/-- run_interactive from src/main.rs: the REPL loop started at last_exit 0,
with the final code reduced to the u8 the process reports. -/
def run_interactive (o : Oracles) (pcs : List (List Char))
    (lines : List (List Char)) : Int :=
  (run_interactive_loop o pcs 0 lines).emod 256

/-! ### Helper lemmas about the drain loop -/

lemma take_min_self {α : Type} (l : List α) (k : Nat) :
    l.take (min l.length k) = l.take k := by
  rcases Nat.le_total l.length k with h | h
  · rw [Nat.min_eq_left h, List.take_length, List.take_of_length_le h]
  · rw [Nat.min_eq_right h]

lemma drainStep_take (f c : List Nat) :
    drainStep ⟨f, f.take STDERR_CAPTURE_LIMIT⟩ c
      = ⟨f ++ c, (f ++ c).take STDERR_CAPTURE_LIMIT⟩ := by
  by_cases h : f.length < STDERR_CAPTURE_LIMIT
  · have htf : f.take STDERR_CAPTURE_LIMIT = f :=
      List.take_of_length_le (Nat.le_of_lt h)
    simp only [drainStep, htf]
    rw [if_pos h]
    simp only [DrainState.mk.injEq, true_and]
    rw [take_min_self, List.take_append_eq_append_take, htf]
  · have hL : STDERR_CAPTURE_LIMIT ≤ f.length := Nat.le_of_not_lt h
    have hcond : ¬ ((f.take STDERR_CAPTURE_LIMIT).length < STDERR_CAPTURE_LIMIT) := by
      rw [List.length_take, Nat.min_eq_left hL]
      exact Nat.lt_irrefl _
    simp only [drainStep]
    rw [if_neg hcond]
    simp only [DrainState.mk.injEq, true_and]
    rw [List.take_append_eq_append_take, Nat.sub_eq_zero_of_le hL, List.take_zero,
      List.append_nil]

lemma drain_foldl (chunks : List (List Nat)) (f : List Nat) :
    List.foldl drainStep ⟨f, f.take STDERR_CAPTURE_LIMIT⟩ chunks
      = ⟨f ++ chunks.flatten, (f ++ chunks.flatten).take STDERR_CAPTURE_LIMIT⟩ := by
  induction chunks generalizing f with
  | nil => simp
  | cons c cs ih =>
      rw [List.foldl_cons, drainStep_take, ih (f ++ c)]
      simp [List.append_assoc]

lemma drainStderr_eq (chunks : List (List Nat)) :
    drainStderr chunks = ⟨chunks.flatten, (chunks.flatten).take STDERR_CAPTURE_LIMIT⟩ := by
  have h := drain_foldl chunks []
  simpa [drainStderr] using h

/-! ### C1, C2, C7 -/

/-- C1: for every run whose stderr stream holds more than 1 MiB, the bytes
written live to the real error stream are the whole stream (every chunk is
forwarded unmodified, also after the quota is exhausted), and the capture —
the byte buffer the returned RunResult's captured_stderr is decoded from —
is exactly the stream's first 1048576 bytes, cut at a byte boundary. -/
theorem tee_forwards_all_and_captures_first_mib
    (decode : List Nat → List Char) (cmd : List Char)
    (chunks : List (List Nat)) (status : WaitStatus)
    (h : STDERR_CAPTURE_LIMIT < (chunks.flatten).length) :
    (drainStderr chunks).forwarded = chunks.flatten ∧
    (drainStderr chunks).captured = (chunks.flatten).take STDERR_CAPTURE_LIMIT ∧
    (drainStderr chunks).captured.length = STDERR_CAPTURE_LIMIT ∧
    (run_bash decode cmd (SpawnOutcome.spawned chunks status)).1.captured_stderr
      = decode ((chunks.flatten).take STDERR_CAPTURE_LIMIT) := by
  refine ⟨?_, ?_, ?_, ?_⟩
  · rw [drainStderr_eq]
  · rw [drainStderr_eq]
  · rw [drainStderr_eq]
    simp only [List.length_take]
    omega
  · simp [run_bash, drainStderr_eq]

theorem tee_forwards_all_and_captures_first_mib_witness :
    STDERR_CAPTURE_LIMIT < (([List.replicate 1048577 0] : List (List Nat)).flatten).length ∧
    (drainStderr [List.replicate 1048577 0]).captured.length = STDERR_CAPTURE_LIMIT := by
  have h : STDERR_CAPTURE_LIMIT
      < (([List.replicate 1048577 0] : List (List Nat)).flatten).length := by
    norm_num [STDERR_CAPTURE_LIMIT]
  exact ⟨h, (tee_forwards_all_and_captures_first_mib (fun _ => []) []
    [List.replicate 1048577 0] WaitStatus.signalled h).2.2.1⟩

/-- C2: the capture buffer of the stderr drain never exceeds 1 MiB — after
the whole loop, and at every single step: a step started below the limit
adds at most the remaining quota, and a step started at the limit appends
nothing at all. -/
theorem capture_never_exceeds_limit :
    (∀ chunks : List (List Nat),
        (drainStderr chunks).captured.length ≤ STDERR_CAPTURE_LIMIT) ∧
    (∀ (st : DrainState) (chunk : List Nat),
        st.captured.length ≤ STDERR_CAPTURE_LIMIT →
          (drainStep st chunk).captured.length ≤ STDERR_CAPTURE_LIMIT ∧
          (drainStep st chunk).captured.length - st.captured.length
            ≤ STDERR_CAPTURE_LIMIT - st.captured.length) ∧
    (∀ (st : DrainState) (chunk : List Nat),
        st.captured.length = STDERR_CAPTURE_LIMIT →
          (drainStep st chunk).captured = st.captured) := by
  refine ⟨?_, ?_, ?_⟩
  · intro chunks
    rw [drainStderr_eq]
    simp only [List.length_take]
    omega
  · intro st chunk h
    simp only [drainStep]
    by_cases hlt : st.captured.length < STDERR_CAPTURE_LIMIT
    · rw [if_pos hlt]
      simp only [List.length_append, List.length_take]
      omega
    · rw [if_neg hlt]
      omega
  · intro st chunk h
    simp only [drainStep]
    rw [if_neg (by omega)]

theorem capture_never_exceeds_limit_witness :
    (drainStep (DrainState.mk [] []) [0, 1, 2]).captured.length
        ≤ STDERR_CAPTURE_LIMIT ∧
    (drainStep (DrainState.mk [] (List.replicate STDERR_CAPTURE_LIMIT 0)) [7]).captured
      = List.replicate STDERR_CAPTURE_LIMIT 0 := by
  constructor
  · exact (capture_never_exceeds_limit.2.1 (DrainState.mk [] [])
      [0, 1, 2] (by simp)).1
  · exact capture_never_exceeds_limit.2.2 _ [7] (by simp)

/-- C7: a spawn failure never escapes ProcessExecutor — run_bash is total
and on the error path returns the synthetic RunResult with exit code 127
whose capture is the diagnostic message, printing that diagnostic exactly
once. -/
theorem spawn_failure_synthetic_result
    (decode : List Nat → List Char) (cmd emsg : List Char) :
    run_bash decode cmd (SpawnOutcome.spawnErr emsg)
      = ({ exit_code := 127,
           captured_stderr := "failed to execute: ".data ++ emsg },
         ["failed to execute: ".data ++ emsg]) := rfl

/-! ### Helper lemmas about the string helpers -/

lemma stripPre_eq_some (p : List Char) :
    ∀ (s r : List Char), stripPre p s = some r ↔ s = p ++ r := by
  induction p with
  | nil => intro s r; simp [stripPre]
  | cons q ps ih =>
      intro s r
      cases s with
      | nil =>
          apply iff_of_false
          · intro hx; cases hx
          · intro hx; cases hx
      | cons c cs =>
          simp only [stripPre]
          by_cases h : q = c
          · subst h
            rw [if_pos rfl, ih cs r]
            simp
          · rw [if_neg h]
            apply iff_of_false
            · intro hx; cases hx
            · intro hx
              injection hx with h1 _
              exact h h1.symm

lemma stripPre_assign_none (p : List Char) :
    ∀ (w rest : List Char), (∀ c ∈ w, isWordChar c = true) →
    '=' ∉ p → (∃ c ∈ p, isWordChar c = false) →
    stripPre p (w ++ '=' :: rest) = none := by
  induction p with
  | nil =>
      intro w rest _ _ hbad
      obtain ⟨c, hc, _⟩ := hbad
      exact absurd hc (List.not_mem_nil c)
  | cons q ps ih =>
      intro w rest hw hne hbad
      cases w with
      | nil =>
          have hq : ¬ (q = '=') := fun h => hne (by rw [h]; exact List.mem_cons_self _ _)
          simp only [List.nil_append, stripPre]
          rw [if_neg hq]
      | cons a w' =>
          simp only [List.cons_append, stripPre]
          by_cases hqa : q = a
          · rw [if_pos hqa]
            apply ih w' rest
            · intro c hc; exact hw c (List.mem_cons_of_mem a hc)
            · intro hmem; exact hne (List.mem_cons_of_mem q hmem)
            · obtain ⟨c, hc, hcf⟩ := hbad
              rcases List.mem_cons.mp hc with h1 | h2
              · exfalso
                have haw := hw a (List.mem_cons_self a w')
                rw [h1, hqa, haw] at hcf
                exact Bool.noConfusion hcf
              · exact ⟨c, h2, hcf⟩
          · rw [if_neg hqa]

lemma splitFirst_append (w rest : List Char) (hw : ∀ c ∈ w, isWordChar c = true) :
    splitFirst '=' (w ++ '=' :: rest) = some (w, rest) := by
  induction w with
  | nil => simp [splitFirst]
  | cons a w' ih =>
      have ha : ¬ (a = '=') := by
        have h := hw a (List.mem_cons_self a w')
        intro hx; rw [hx] at h; exact absurd h (by decide)
      have ih2 : splitFirst '=' (List.append w' ('=' :: rest)) = some (w', rest) :=
        ih (fun c hc => hw c (List.mem_cons_of_mem a hc))
      simp only [List.cons_append, splitFirst]
      rw [if_neg ha, ih2]

lemma contains_space_eq_false (w : List Char)
    (hw : ∀ c ∈ w, isWordChar c = true) : w.contains ' ' = false := by
  cases h : w.contains ' '
  · rfl
  · exfalso
    have hmem : ' ' ∈ w := List.elem_iff.mp h
    have := hw ' ' hmem
    exact absurd this (by decide)

lemma contains_eq_false_of_not_mem {a : Char} {l : List Char} (h : a ∉ l) :
    l.contains a = false := by
  cases hx : l.contains a
  · rfl
  · exact absurd (List.elem_iff.mp hx) h

/-! ### C3, C4, C9 -/

/-- C3 (counterexample): the input ". x" has the sentinel '.' as first
character yet classifies as the source builtin, not as ShellCommand. -/
theorem sentinel_dot_space_counterexample :
    classify_input ". x".data [] = InputKind.Source "x".data ∧
    classify_input ". x".data [] ≠ InputKind.ShellCommand ". x".data := by
  constructor
  · decide
  · decide

/-- C3 (amended): for every input whose first character is one of the
shell-syntax sentinels, classification yields ShellCommand, unless the line
begins with ". " — the period-space form the source builtin consumes
first. -/
theorem sentinel_first_char_shell_command
    (input : List Char) (pcs : List (List Char)) (c : Char)
    (hhead : input.head? = some c)
    (hc : sentinelChars.contains c = true)
    (hdot : startsWith ". ".data input = false) :
    classify_input input pcs = InputKind.ShellCommand input := by
  cases input with
  | nil => cases hhead
  | cons a rest =>
      have hac : a = c := by
        have h' : some a = some c := hhead
        injection h'
      subst hac
      have hmem : a ∈ sentinelChars := List.elem_iff.mp hc
      have hnone : stripPre ". ".data (a :: rest) = none := by
        cases h : stripPre ". ".data (a :: rest)
        · rfl
        · rw [startsWith, h] at hdot
          cases hdot
      fin_cases hmem
      case _ => rfl
      case _ =>
        simp only [classify_input, hnone]
        rfl
      all_goals rfl

/-- C3 witness: "/tmp/x" starts with the sentinel '/' and classifies as
ShellCommand. -/
theorem sentinel_first_char_shell_command_witness :
    sentinelChars.contains '/' = true ∧
    startsWith ". ".data "/tmp/x".data = false ∧
    classify_input "/tmp/x".data [] = InputKind.ShellCommand "/tmp/x".data :=
  ⟨by decide, by decide,
    sentinel_first_char_shell_command "/tmp/x".data [] '/'
      (by decide) (by decide) (by decide)⟩

/-- C4: every input of the shape word ++ '=' ++ anything, with the word a
nonempty run of ASCII alphanumerics/underscores, classifies as
ShellCommand: no earlier rule can consume it and the variable-assignment
check of the shell-likeness test fires. -/
theorem assignment_pattern_shell_command
    (w rest : List Char) (pcs : List (List Char))
    (hw : w ≠ [])
    (hall : ∀ c ∈ w, isWordChar c = true) :
    classify_input (w ++ '=' :: rest) pcs
      = InputKind.ShellCommand (w ++ '=' :: rest) := by
  obtain ⟨a, w', rfl⟩ : ∃ a w', w = a :: w' := by
    cases w with
    | nil => exact absurd rfl hw
    | cons x xs => exact ⟨x, xs, rfl⟩
  have hmemEq : '=' ∈ a :: (w' ++ '=' :: rest) := by simp
  have hne : ∀ (t : List Char), '=' ∉ t → a :: (w' ++ '=' :: rest) ≠ t := by
    intro t ht heq
    rw [heq] at hmemEq
    exact ht hmemEq
  have ha := hall a (List.mem_cons_self a w')
  have hanh : ¬ (a = '#') := by
    intro h; rw [h] at ha; exact absurd ha (by decide)
  have e1 : a :: (w' ++ '=' :: rest) ≠ "exit".data := hne _ (by decide)
  have e2 : a :: (w' ++ '=' :: rest) ≠ "quit".data := hne _ (by decide)
  have e3 : a :: (w' ++ '=' :: rest) ≠ "logout".data := hne _ (by decide)
  have e4 : a :: (w' ++ '=' :: rest) ≠ "help".data := hne _ (by decide)
  have e5 : a :: (w' ++ '=' :: rest) ≠ "history".data := hne _ (by decide)
  have e6 : a :: (w' ++ '=' :: rest) ≠ "cd".data := hne _ (by decide)
  have p1 : stripPre "exit ".data (a :: (w' ++ '=' :: rest)) = none :=
    stripPre_assign_none _ (a :: w') rest hall (by decide) (by decide)
  have p2 : stripPre "! ".data (a :: (w' ++ '=' :: rest)) = none :=
    stripPre_assign_none _ (a :: w') rest hall (by decide) (by decide)
  have p3 : stripPre "!".data (a :: (w' ++ '=' :: rest)) = none :=
    stripPre_assign_none _ (a :: w') rest hall (by decide) (by decide)
  have p4 : stripPre "?? ".data (a :: (w' ++ '=' :: rest)) = none :=
    stripPre_assign_none _ (a :: w') rest hall (by decide) (by decide)
  have p5 : stripPre "??".data (a :: (w' ++ '=' :: rest)) = none :=
    stripPre_assign_none _ (a :: w') rest hall (by decide) (by decide)
  have p6 : stripPre "? ".data (a :: (w' ++ '=' :: rest)) = none :=
    stripPre_assign_none _ (a :: w') rest hall (by decide) (by decide)
  have p7 : stripPre "?".data (a :: (w' ++ '=' :: rest)) = none :=
    stripPre_assign_none _ (a :: w') rest hall (by decide) (by decide)
  have p8 : stripPre "cd ".data (a :: (w' ++ '=' :: rest)) = none :=
    stripPre_assign_none _ (a :: w') rest hall (by decide) (by decide)
  have p9 : stripPre "export ".data (a :: (w' ++ '=' :: rest)) = none :=
    stripPre_assign_none _ (a :: w') rest hall (by decide) (by decide)
  have p10 : stripPre "unset ".data (a :: (w' ++ '=' :: rest)) = none :=
    stripPre_assign_none _ (a :: w') rest hall (by decide) (by decide)
  have p11 : stripPre "source ".data (a :: (w' ++ '=' :: rest)) = none :=
    stripPre_assign_none _ (a :: w') rest hall (by decide) (by decide)
  have p12 : stripPre ". ".data (a :: (w' ++ '=' :: rest)) = none :=
    stripPre_assign_none _ (a :: w') rest hall (by decide) (by decide)
  have hsentm : a ∉ sentinelChars := by
    intro hmem
    have hws := (show ∀ x ∈ sentinelChars, isWordChar x = false by decide) a hmem
    rw [ha] at hws
    exact Bool.noConfusion hws
  have hsent : sentinelChars.contains a = false := contains_eq_false_of_not_mem hsentm
  have hsf : splitFirst '=' (a :: (w' ++ '=' :: rest)) = some (a :: w', rest) :=
    splitFirst_append (a :: w') rest hall
  have hcs : (a :: w').contains ' ' = false := contains_space_eq_false _ hall
  have hns : ¬ (' ' ∈ (a :: w')) := by
    intro hm
    have hcw := hall ' ' hm
    exact absurd hcw (by decide)
  have hall' : (a :: w').all isWordChar = true := List.all_eq_true.mpr hall
  have hshell : is_shell_command (a :: (w' ++ '=' :: rest)) pcs = true := by
    simp [is_shell_command, hsent, hsentm, hsf, hcs, hns, hall']
  simp [classify_input, p1, p2, p3, p4, p5, p6, p7, p8, p9, p10, p11, p12,
    e1, e2, e3, e4, e5, e6, hshell, hanh, Option.orElse]

/-- C4 witness: "FOO=bar" classifies as ShellCommand. -/
theorem assignment_pattern_shell_command_witness :
    ("FOO".data ≠ ([] : List Char)) ∧
    (∀ c ∈ "FOO".data, isWordChar c = true) ∧
    classify_input ("FOO".data ++ '=' :: "bar".data) []
      = InputKind.ShellCommand ("FOO".data ++ '=' :: "bar".data) :=
  ⟨by decide, by decide,
    assignment_pattern_shell_command "FOO".data "bar".data [] (by decide) (by decide)⟩

/-- C9: classification is total on the empty line: with an empty-name-free
PATH snapshot every rule and the shell-likeness test (whose first-character
read substitutes a space) falls through, yielding NaturalLanguage of the
empty string. -/
theorem classify_total_on_empty (pcs : List (List Char))
    (h : pcs.contains ([] : List Char) = false) :
    classify_input [] pcs = InputKind.NaturalLanguage [] := by
  have hm : ([] : List Char) ∉ pcs := by
    intro hmem
    have ht : pcs.contains ([] : List Char) = true := List.elem_iff.mpr hmem
    rw [h] at ht
    exact Bool.noConfusion ht
  simp [classify_input, is_shell_command, stripPre, splitFirst, startsWith,
    sentinelChars, SHELL_BUILTINS, COMMAND_PREFIXES, hm]

/-- C9 witness: with the one-entry PATH snapshot containing "ls". -/
theorem classify_total_on_empty_witness :
    (["ls".data] : List (List Char)).contains [] = false ∧
    classify_input [] ["ls".data] = InputKind.NaturalLanguage [] :=
  ⟨by decide, classify_total_on_empty ["ls".data] (by decide)⟩

/-! ### Helper lemmas about the recovery traces -/

lemma do_ai_callAI_count (aiO : ErrorContext → Option (List Char))
    (cmd stderr : List Char) (exit_code : Int) (users : List (List Char)) :
    ((do_ai_error_analysis aiO cmd stderr exit_code users).filter
      Ev.isCallAI).length = 1 := by
  simp only [do_ai_error_analysis]
  cases aiO ⟨cmd, exit_code, stderr⟩ with
  | none => simp [Ev.isCallAI]
  | some reply =>
      cases hsp : splitOnceSub ['\n', '\n'] (strip_code_fences reply) with
      | none => simp [hsp, Ev.isCallAI]
      | some pr =>
          obtain ⟨p1, p2⟩ := pr
          simp only [hsp]
          split <;> simp [Ev.isCallAI]

lemma do_ai_run_last (aiO : ErrorContext → Option (List Char))
    (cmd stderr : List Char) (exit_code : Int) (users : List (List Char)) :
    ((do_ai_error_analysis aiO cmd stderr exit_code users).dropWhile
      (fun e => !(Ev.isRunCmd e))).length ≤ 1 := by
  simp only [do_ai_error_analysis]
  cases aiO ⟨cmd, exit_code, stderr⟩ with
  | none => simp [Ev.isCallAI, Ev.isRunCmd]
  | some reply =>
      cases hsp : splitOnceSub ['\n', '\n'] (strip_code_fences reply) with
      | none => simp [hsp, Ev.isCallAI, Ev.isRunCmd]
      | some pr =>
          obtain ⟨p1, p2⟩ := pr
          simp only [hsp]
          split <;> simp [Ev.isCallAI, Ev.isRunCmd]

/-! ### C5, C6, C10 -/

/-- C5: with a permission-denial signal in the captured stderr and a
command not already starting with "sudo ", the first action the recovery
flow offers is the sudo retry prompt, and in particular not the AI-fix
offer. -/
theorem permission_error_offers_sudo_first
    (runO : List Char → RunResult) (aiO : ErrorContext → Option (List Char))
    (cmd : List Char) (result : RunResult) (users : List (List Char))
    (hperm : is_permission_error result.captured_stderr = true)
    (hsudo : startsWith "sudo ".data cmd = false) :
    (offer_error_help runO aiO cmd result users).head? = some Ev.promptSudo ∧
    ∀ c : Int,
      (offer_error_help runO aiO cmd result users).head?
        ≠ some (Ev.promptFix c) := by
  constructor
  · simp [offer_error_help, hperm, hsudo]
  · intro c
    simp [offer_error_help, hperm, hsudo]

/-- C5 witness: a failed read of /etc/shadow. -/
theorem permission_error_offers_sudo_first_witness :
    is_permission_error
        (RunResult.mk 1 "cat: /etc/shadow: Permission denied".data).captured_stderr
      = true ∧
    startsWith "sudo ".data "cat /etc/shadow".data = false ∧
    (offer_error_help (fun _ => RunResult.mk 0 []) (fun _ => none)
        "cat /etc/shadow".data
        (RunResult.mk 1 "cat: /etc/shadow: Permission denied".data) []).head?
      = some Ev.promptSudo :=
  ⟨by decide, by decide,
    (permission_error_offers_sudo_first (fun _ => RunResult.mk 0 []) (fun _ => none)
      "cat /etc/shadow".data
      (RunResult.mk 1 "cat: /etc/shadow: Permission denied".data) []
      (by decide) (by decide)).1⟩

/-- C6: the AI round of the recovery flow is not re-entered: the analysis
trace contains exactly one AI call, and from the first run of a suggested
command on, nothing else happens (no elevation prompt, no fix offer, no AI
call — the run event, when present, is the last event); moreover a whole
offer_error_help flow contains at most one AI call. -/
theorem ai_fix_no_reentry
    (aiO : ErrorContext → Option (List Char)) (cmd stderr : List Char)
    (exit_code : Int) (users : List (List Char)) :
    (((do_ai_error_analysis aiO cmd stderr exit_code users).filter
        Ev.isCallAI).length = 1) ∧
    (((do_ai_error_analysis aiO cmd stderr exit_code users).dropWhile
        (fun e => !(Ev.isRunCmd e))).length ≤ 1) ∧
    (∀ (runO : List Char → RunResult) (result : RunResult),
      ((offer_error_help runO aiO cmd result users).filter
        Ev.isCallAI).length ≤ 1) := by
  refine ⟨do_ai_callAI_count aiO cmd stderr exit_code users,
    do_ai_run_last aiO cmd stderr exit_code users, ?_⟩
  intro runO result
  simp only [offer_error_help]
  split
  · split
    · split
      · split
        · simp [Ev.isCallAI, do_ai_callAI_count]
        · simp [Ev.isCallAI]
      · simp [Ev.isCallAI]
    · simp only [fix_offer]
      split
      · simp [Ev.isCallAI, do_ai_callAI_count]
      · simp [Ev.isCallAI]
  · simp only [fix_offer]
    split
    · simp [Ev.isCallAI, do_ai_callAI_count]
    · simp [Ev.isCallAI]

/-- C10: after an accepted sudo retry fails and the user presses f, the
context handed to the AI names the original un-elevated command together
with the elevated retry's stderr and exit code; the sudo-prefixed command
that actually produced that stderr is not the command in the context. -/
theorem ai_context_pairs_original_command
    (runO : List Char → RunResult) (aiO : ErrorContext → Option (List Char))
    (cmd : List Char) (result : RunResult) (u1 u2 : List Char)
    (rest : List (List Char))
    (hperm : is_permission_error result.captured_stderr = true)
    (hsudo : startsWith "sudo ".data cmd = false)
    (hy : lowerTrim u1 = "y".data)
    (hf : lowerTrim u2 = "f".data)
    (hfail : (runO ("sudo ".data ++ cmd)).exit_code ≠ 0) :
    (offer_error_help runO aiO cmd result (u1 :: u2 :: rest))[3]? =
      some (Ev.callAI ⟨cmd, (runO ("sudo ".data ++ cmd)).exit_code,
        (runO ("sudo ".data ++ cmd)).captured_stderr⟩) ∧
    "sudo ".data ++ cmd ≠ cmd := by
  constructor
  · have hfail' : (runO ('s' :: 'u' :: 'd' :: 'o' :: ' ' :: cmd)).exit_code ≠ 0 := hfail
    simp [offer_error_help, hperm, hsudo, hy, hf, hfail', do_ai_error_analysis]
  · intro heq
    have hlen : ("sudo ".data ++ cmd).length = cmd.length := congrArg List.length heq
    rw [List.length_append] at hlen
    have h5 : ("sudo ".data).length = 5 := rfl
    rw [h5] at hlen
    omega

/-- C10 witness: a concrete failed chmod with a failed sudo retry and an
accepted AI-fix offer. -/
theorem ai_context_pairs_original_command_witness :
    is_permission_error
        (RunResult.mk 1 "Permission denied".data).captured_stderr = true ∧
    startsWith "sudo ".data "chmod +x f".data = false ∧
    lowerTrim " y ".data = "y".data ∧
    lowerTrim "F".data = "f".data ∧
    ((fun _ => RunResult.mk 1 "still denied".data)
        ("sudo ".data ++ "chmod +x f".data) : RunResult).exit_code ≠ 0 ∧
    (offer_error_help (fun _ => RunResult.mk 1 "still denied".data)
        (fun _ => none) "chmod +x f".data
        (RunResult.mk 1 "Permission denied".data)
        [" y ".data, "F".data])[3]? =
      some (Ev.callAI ⟨"chmod +x f".data, 1, "still denied".data⟩) :=
  ⟨by decide, by decide, by decide, by decide, by decide,
    (ai_context_pairs_original_command (fun _ => RunResult.mk 1 "still denied".data)
      (fun _ => none) "chmod +x f".data (RunResult.mk 1 "Permission denied".data)
      " y ".data "F".data [] (by decide) (by decide) (by decide) (by decide)
      (by decide)).1⟩

/-! ### C8 -/

/-- C8 (counterexample): with a shell oracle in which "false" exits 1, the
piped-mode session "false" then bare "exit" terminates with code 0 — not
with the previous command's exit code 1 the claim requires — while the same
interactive session does terminate with 1. -/
theorem bare_exit_piped_counterexample :
    run_piped (Oracles.mk (fun _ => RunResult.mk 1 []) (fun _ => 0)
        (fun _ => Except.ok 0) (fun _ => 0) true) []
      ["false".data, "exit".data] = 0 ∧
    run_interactive (Oracles.mk (fun _ => RunResult.mk 1 []) (fun _ => 0)
        (fun _ => Except.ok 0) (fun _ => 0) true) []
      ["false".data, "exit".data] = 1 ∧
    ¬ (run_piped (Oracles.mk (fun _ => RunResult.mk 1 []) (fun _ => 0)
        (fun _ => Except.ok 0) (fun _ => 0) true) []
      ["false".data, "exit".data] = 1) := by
  refine ⟨by decide, by decide, by decide⟩

/-- C8 (amended): "exit 5" terminates every mode with code 5; a bare "exit"
reuses the previous command's exit code in the interactive loop, while the
piped and script loops terminate through process::exit(code.unwrap_or(0)),
i.e. with code 0. -/
theorem exit_codes_by_mode (o : Oracles) (pcs : List (List Char))
    (lastExit : Int) (restLines : List (List Char)) :
    run_interactive_loop o pcs lastExit ("exit 5".data :: restLines) = 5 ∧
    run_interactive_loop o pcs lastExit ("exit".data :: restLines) = lastExit ∧
    run_lines o pcs lastExit ("exit 5".data :: restLines) = 5 ∧
    run_lines o pcs lastExit ("exit".data :: restLines) = 0 ∧
    run_piped o pcs ["exit 5".data] = 5 ∧
    run_script o pcs ["exit 5".data] = 5 := by
  refine ⟨?_, ?_, ?_, ?_, ?_, ?_⟩ <;> rfl

end Claudesh
